import Mathlib

/-
Verification of the reduction-geometry planner in quack/reduction_base.py.

The planner is embedded shallowly: machine integers are Nat (all quantities in
the source are nonnegative Python ints), Python assert statements become an
error result, and the cute layout objects become concrete (shape, stride)
records.  Each definition mirrors one function or call site of the source.
-/

set_option autoImplicit false
set_option maxRecDepth 8192

namespace Quack

/-- Hardware warp size, cute.arch.WARP_SIZE. -/
def WARP_SIZE : Nat := 32

/-- Bit width of one vectorized copy, the local constant copy_bits in
ReductionBase._get_tv_layout. -/
def copy_bits : Nat := 128

/-- Bit width of cutlass.Int64, the type of the barrier words. -/
def Int64_width : Nat := 64

/-- cute.ceil_div on natural numbers. -/
def ceil_div (a b : Nat) : Nat := (a + b - 1) / b

/-- utils.max_constexpr, an ordinary maximum of two integers. -/
def max_constexpr (a b : Nat) : Nat := max a b

/-- ReductionBase._get_num_threads: 128 threads for rows up to 16384 elements,
256 beyond. -/
def get_num_threads (N : Nat) : Nat := if N ≤ 16384 then 128 else 256

/-- The rank-2 nested (shape, stride) layout built by cute.make_layout inside
ReductionBase._get_tv_layout: shape ((cols_per_block, threads_per_row),
(vecsize, num_blocks_N)) with the matching nested strides. -/
structure TVLayout where
  shape : (Nat × Nat) × (Nat × Nat)
  stride : (Nat × Nat) × (Nat × Nat)
deriving DecidableEq

/-- The two Python assert statements in ReductionBase._get_tv_layout, as a
structured error carrying the values interpolated into the assertion message. -/
inductive PlanError where
  | divisibility (N vecsize : Nat)
  | alignment (num_threads : Nat)
deriving DecidableEq

/-- Result of ReductionBase._get_tv_layout: either the (tiler_mn, tv_layout)
pair or an assertion failure. -/
inductive PlanResult where
  | ok (tiler_mn : Nat × Nat) (tv_layout : TVLayout)
  | error (e : PlanError)
deriving DecidableEq

/-- ReductionBase._get_tv_layout.  dtype_width is self.dtype.width,
cluster_n is self.cluster_n, and threads_per_row is the value returned by the
externally supplied policy self._calculate_threads_per_row(). -/
def get_tv_layout (dtype_width N cluster_n threads_per_row : Nat) : PlanResult :=
  let vecsize := copy_bits / dtype_width
  if N % vecsize ≠ 0 then .error (.divisibility N vecsize)
  else
    let num_threads := get_num_threads N
    if num_threads % WARP_SIZE ≠ 0 then .error (.alignment num_threads)
    else
      let num_blocks_N := ceil_div (N / vecsize) (threads_per_row * cluster_n)
      let cols_per_block := num_threads / threads_per_row
      .ok (cols_per_block, vecsize * num_blocks_N * threads_per_row)
        ⟨((cols_per_block, threads_per_row), (vecsize, num_blocks_N)),
         ((1, vecsize * cols_per_block),
          (cols_per_block, cols_per_block * vecsize * threads_per_row))⟩

/-- Offset assigned by a TV layout to (linear thread id, vector slot,
block chunk): the thread id is split along the first (thread) mode of the
layout and every coordinate is multiplied by its stride, as cute layouts do. -/
def tv_offset (L : TVLayout) (tid v b : Nat) : Nat :=
  (tid % L.shape.1.1) * L.stride.1.1 + (tid / L.shape.1.1) * L.stride.1.2 +
    v * L.stride.2.1 + b * L.stride.2.2

/-- cute.size of the TV layout: the product of all shape extents. -/
def tv_size (L : TVLayout) : Nat :=
  L.shape.1.1 * L.shape.1.2 * (L.shape.2.1 * L.shape.2.2)

/-- cute.size(tv_layout, mode=[0]): the extent of the thread mode. -/
def tv_thr_size (L : TVLayout) : Nat := L.shape.1.1 * L.shape.1.2

/-- A plain rank-2 (shape, stride) layout, as built by cute.make_layout on a
bare shape pair. -/
structure Layout2 where
  shape : Nat × Nat
  stride : Nat × Nat
deriving DecidableEq

/-- cute.make_layout on a bare (m, n) shape: compact column-major strides. -/
def make_layout2 (s : Nat × Nat) : Layout2 := ⟨s, (1, s.1)⟩

/-- cute.cosize of a rank-2 layout: one past the largest addressed offset. -/
def cosize2 (L : Layout2) : Nat :=
  (L.shape.1 - 1) * L.stride.1 + (L.shape.2 - 1) * L.stride.2 + 1

/-- cute.size_in_bytes: the cosize of the layout times the element bit width,
converted to bytes. -/
def size_in_bytes (width : Nat) (L : Layout2) : Nat := width * cosize2 L / 8

/-- ReductionBase._smem_size_in_bytes: tile bytes plus reduction-buffer bytes
plus one Int64 barrier word per stage. -/
def smem_size_in_bytes (dtype_width stage reduction_dtype_width cluster_n : Nat)
    (tiler_mn : Nat × Nat) (num_warps : Nat) : Nat :=
  size_in_bytes dtype_width (make_layout2 tiler_mn)
    + stage * num_warps * cluster_n * (reduction_dtype_width / 8)
    + stage * (Int64_width / 8)

/-- The rank-3 layout of the reduction buffer, with a nested middle mode. -/
structure RBLayout where
  shape : Nat × (Nat × Nat) × Nat
  stride : Nat × (Nat × Nat) × Nat
deriving DecidableEq

/-- cute.make_ordered_layout specialized to the fixed order (1, 0, 2) used at
its only call site: mode 1 (the nested pair) is innermost and compact, then
mode 0, then mode 2. -/
def make_ordered_layout_102 (s : Nat × (Nat × Nat) × Nat) : RBLayout :=
  ⟨s, (s.2.1.1 * s.2.1.2, (1, s.2.1.1), s.1 * (s.2.1.1 * s.2.1.2))⟩

/-- ReductionBase._get_reduction_buffer_layout. -/
def get_reduction_buffer_layout (stage : Nat) (tv_layout : TVLayout)
    (cluster_n : Nat) : RBLayout :=
  let num_warps := tv_thr_size tv_layout / WARP_SIZE
  let warps_per_row := max_constexpr (tv_layout.shape.1.1 / WARP_SIZE) 1
  make_ordered_layout_102 (num_warps / warps_per_row, (warps_per_row, cluster_n), stage)

/-- ReductionBase._allocate_reduction_buffer_and_mbar: the reduction-buffer
layout handed to the scratch allocator, and the number of Int64 barrier words
allocated (stage of them when cluster_n exceeds 1, otherwise none). -/
def allocate_reduction_buffer_and_mbar (stage cluster_n : Nat)
    (tv_layout : TVLayout) : RBLayout × Option Nat :=
  (get_reduction_buffer_layout stage tv_layout cluster_n,
   if cluster_n > 1 then some stage else none)

/-- One hardware barrier operation issued by ReductionBase._initialize_cluster. -/
inductive ClusterOp where
  | mbarrier_init_arrive_cnt (idx cnt : Nat)
  | mbarrier_init_fence
  | mbarrier_init_tx_bytes (idx bytes : Nat)
  | cluster_arrive_relaxed
deriving DecidableEq

/-- The trace of hardware barrier operations that
ReductionBase._initialize_cluster emits for the thread with logical index
tidx, in program order. -/
def init_cluster (tidx stage cluster_n num_warps reduction_dtype_width : Nat) :
    List ClusterOp :=
  if cluster_n > 1 then
    (if tidx < stage then [ClusterOp.mbarrier_init_arrive_cnt tidx 1] else [])
      ++ [ClusterOp.mbarrier_init_fence]
      ++ (if tidx < stage then
            [ClusterOp.mbarrier_init_tx_bytes tidx
              (num_warps * cluster_n * reduction_dtype_width / 8)]
          else [])
      ++ [ClusterOp.cluster_arrive_relaxed]
  else []

/-- The built-in thread-count policy always yields a warp-aligned count. -/
lemma get_num_threads_mod (N : Nat) : get_num_threads N % WARP_SIZE = 0 := by
  unfold get_num_threads WARP_SIZE
  split <;> rfl

/-- One mixed-radix digit step: a digit below P followed by a tail below Q
stays below P times Q. -/
lemma digit_step_lt {P Q c x : Nat} (hc : c < P) (hx : x < Q) :
    c + P * x < P * Q := by
  have h1 : c + P * x < P * (x + 1) := by
    have h2 : P * (x + 1) = P * x + P := Nat.mul_succ P x
    omega
  exact Nat.lt_of_lt_of_le h1 (Nat.mul_le_mul_left P hx)

/-- Recovering the low digit of a mixed-radix encoding. -/
lemma digit_mod {P c x : Nat} (hc : c < P) : (c + P * x) % P = c := by
  rw [Nat.add_mul_mod_self_left, Nat.mod_eq_of_lt hc]

/-- Recovering the tail of a mixed-radix encoding. -/
lemma digit_div {P c x : Nat} (hc : c < P) : (c + P * x) / P = x := by
  have hP : 0 < P := Nat.lt_of_le_of_lt (Nat.zero_le c) hc
  rw [Nat.add_mul_div_left _ _ hP, Nat.div_eq_of_lt hc, Nat.zero_add]

/-- Injectivity of the four-digit mixed-radix encoding used by the TV layout. -/
lemma radix4_inj {P V T : Nat} {c1 v1 t1 b1 c2 v2 t2 b2 : Nat}
    (hc1 : c1 < P) (hv1 : v1 < V) (ht1 : t1 < T)
    (hc2 : c2 < P) (hv2 : v2 < V) (ht2 : t2 < T)
    (h : c1 + P * (v1 + V * (t1 + T * b1)) = c2 + P * (v2 + V * (t2 + T * b2))) :
    c1 = c2 ∧ v1 = v2 ∧ t1 = t2 ∧ b1 = b2 := by
  have hcc : c1 = c2 := by
    have h0 := congrArg (· % P) h
    simpa [digit_mod hc1, digit_mod hc2] using h0
  have h2 : v1 + V * (t1 + T * b1) = v2 + V * (t2 + T * b2) := by
    have h0 := congrArg (· / P) h
    simpa [digit_div hc1, digit_div hc2] using h0
  have hvv : v1 = v2 := by
    have h0 := congrArg (· % V) h2
    simpa [digit_mod hv1, digit_mod hv2] using h0
  have h3 : t1 + T * b1 = t2 + T * b2 := by
    have h0 := congrArg (· / V) h2
    simpa [digit_div hv1, digit_div hv2] using h0
  have htt : t1 = t2 := by
    have h0 := congrArg (· % T) h3
    simpa [digit_mod ht1, digit_mod ht2] using h0
  have hbb : b1 = b2 := by
    have h0 := congrArg (· / T) h3
    simpa [digit_div ht1, digit_div ht2] using h0
  exact ⟨hcc, hvv, htt, hbb⟩

/-- Surjectivity of the four-digit mixed-radix encoding: every offset below the
capacity decomposes into in-range digits. -/
lemma radix4_surj {P V T B : Nat} (o : Nat) (ho : o < P * V * T * B) :
    ∃ c v t b, c < P ∧ v < V ∧ t < T ∧ b < B ∧
      c + P * (v + V * (t + T * b)) = o := by
  have hpos : 0 < P * V * T * B := Nat.lt_of_le_of_lt (Nat.zero_le o) ho
  have hP : 0 < P := by
    rcases Nat.eq_zero_or_pos P with h | h
    · rw [h] at hpos; simp at hpos
    · exact h
  have hV : 0 < V := by
    rcases Nat.eq_zero_or_pos V with h | h
    · rw [h] at hpos; simp at hpos
    · exact h
  have hT : 0 < T := by
    rcases Nat.eq_zero_or_pos T with h | h
    · rw [h] at hpos; simp at hpos
    · exact h
  refine ⟨o % P, o / P % V, o / (P * V) % T, o / (P * V * T),
    Nat.mod_lt _ hP, Nat.mod_lt _ hV, Nat.mod_lt _ hT,
    Nat.div_lt_of_lt_mul ho, ?_⟩
  have e1 : o % P + P * (o / P) = o := Nat.mod_add_div o P
  have e2 : o / P % V + V * (o / P / V) = o / P := Nat.mod_add_div (o / P) V
  have e3 : o / (P * V) % T + T * (o / (P * V) / T) = o / (P * V) :=
    Nat.mod_add_div (o / (P * V)) T
  rw [Nat.div_div_eq_div_mul] at e2
  rw [Nat.div_div_eq_div_mul] at e3
  rw [e3, e2, e1]

/-- The ceiling quotient covers the dividend. -/
lemma le_mul_ceil_div {M K : Nat} (hK : 0 < K) : M ≤ K * ceil_div M K := by
  unfold ceil_div
  have h1 := Nat.div_add_mod (M + K - 1) K
  have h2 := Nat.mod_lt (M + K - 1) hK
  omega

/-- The ceiling quotient overshoots by less than one divisor. -/
lemma mul_ceil_div_lt {M K : Nat} (hK : 0 < K) : K * ceil_div M K < M + K := by
  unfold ceil_div
  have h1 := Nat.div_add_mod (M + K - 1) K
  omega

/-- Any ok result of the planner presupposes the divisibility assertion. -/
lemma get_tv_layout_ok_div {w N cn tpr : Nat} {tiler : Nat × Nat} {L : TVLayout}
    (h : get_tv_layout w N cn tpr = .ok tiler L) : N % (copy_bits / w) = 0 := by
  by_contra hne
  unfold get_tv_layout at h
  simp only [if_pos hne] at h
  exact PlanResult.noConfusion h

/-- Explicit form of the planner result when the divisibility assertion holds. -/
lemma get_tv_layout_eq_ok (w N cn tpr : Nat) (h : N % (copy_bits / w) = 0) :
    get_tv_layout w N cn tpr = .ok
      (get_num_threads N / tpr,
        copy_bits / w * ceil_div (N / (copy_bits / w)) (tpr * cn) * tpr)
      ⟨((get_num_threads N / tpr, tpr),
          (copy_bits / w, ceil_div (N / (copy_bits / w)) (tpr * cn))),
        ((1, copy_bits / w * (get_num_threads N / tpr)),
          (get_num_threads N / tpr,
            get_num_threads N / tpr * (copy_bits / w) * tpr))⟩ := by
  unfold get_tv_layout
  simp [h, get_num_threads_mod N]

/-- C4: for N=512, 16-bit elements (vectorWidth=8), threadsPerRow=32,
clusterSize=1, threadCount=128, the planner computes colsPerBlock=4,
blocksPerRow=2, tileShape=(4, 512), and a tvLayout with outer shape (4,32)
and strides (1,32) and inner shape (8,2) and strides (4,1024). -/
theorem C4_example_layout :
    get_tv_layout 16 512 1 32 =
      .ok (4, 512) ⟨((4, 32), (8, 2)), ((1, 32), (4, 1024))⟩ := by decide

/-- C7: getNumThreads(N) returns 128 if N is at most 16384 and 256 otherwise;
in particular getNumThreads(16384) = 128 and getNumThreads(16385) = 256. -/
theorem C7_num_threads (N : Nat) (hN : 0 < N) :
    get_num_threads N = (if N ≤ 16384 then 128 else 256)
      ∧ get_num_threads 16384 = 128 ∧ get_num_threads 16385 = 256 :=
  ⟨rfl, rfl, rfl⟩

/-- Witness for C7 at N = 1. -/
theorem C7_num_threads_witness :
    get_num_threads 1 = (if 1 ≤ 16384 then 128 else 256)
      ∧ get_num_threads 16384 = 128 ∧ get_num_threads 16385 = 256 :=
  C7_num_threads 1 (by decide)

/-- C5: smemSizeInBytes is exactly the byte size of the tile at the element
width, plus stageCount times warpCount times clusterSize times the accumulator
byte width, plus stageCount times a fixed 8-byte barrier word. -/
theorem C5_smem_size (dtype_width stage reduction_dtype_width cluster_n : Nat)
    (m n num_warps : Nat) (hm : 0 < m) (hn : 0 < n) :
    smem_size_in_bytes dtype_width stage reduction_dtype_width cluster_n
        (m, n) num_warps =
      dtype_width * (m * n) / 8
        + stage * num_warps * cluster_n * (reduction_dtype_width / 8)
        + stage * 8 := by
  obtain ⟨m', rfl⟩ : ∃ m', m = m' + 1 := ⟨m - 1, by omega⟩
  obtain ⟨n', rfl⟩ : ∃ n', n = n' + 1 := ⟨n - 1, by omega⟩
  unfold smem_size_in_bytes size_in_bytes cosize2 make_layout2 Int64_width
  have hco : (m' + 1 - 1) * 1 + (n' + 1 - 1) * (m' + 1) + 1
      = (m' + 1) * (n' + 1) := by
    simp only [Nat.add_sub_cancel]
    ring
  rw [hco]

/-- Witness for C5 at the tile shape (4, 512) of the worked example, with
16-bit elements, 2 stages, 32-bit accumulators, cluster size 1, 4 warps. -/
theorem C5_smem_size_witness :
    smem_size_in_bytes 16 2 32 1 (4, 512) 4 =
      16 * (4 * 512) / 8 + 2 * 4 * 1 * (32 / 8) + 2 * 8 :=
  C5_smem_size 16 2 32 1 4 512 4 (by decide) (by decide)

/-- C6: the planner fails with the divisibility error, carrying the offending
N and vector width, exactly when N is not a multiple of the vector width; no
other error is ever produced; and N=510 with 16-bit elements (vector width 8)
fails this way. -/
theorem C6_divisibility_error (width N cluster_n threads_per_row : Nat) :
    (get_tv_layout width N cluster_n threads_per_row =
        .error (.divisibility N (copy_bits / width))
      ↔ ¬ N % (copy_bits / width) = 0)
    ∧ (∀ e, get_tv_layout width N cluster_n threads_per_row = .error e →
        e = .divisibility N (copy_bits / width))
    ∧ get_tv_layout 16 510 cluster_n threads_per_row =
        .error (.divisibility 510 8) := by
  refine ⟨?_, ?_, ?_⟩
  · constructor
    · intro h hdvd
      rw [get_tv_layout_eq_ok width N cluster_n threads_per_row hdvd] at h
      exact PlanResult.noConfusion h
    · intro hdvd
      unfold get_tv_layout
      simp only [if_pos hdvd]
  · intro e he
    by_cases hdvd : N % (copy_bits / width) = 0
    · rw [get_tv_layout_eq_ok width N cluster_n threads_per_row hdvd] at he
      exact PlanResult.noConfusion he
    · unfold get_tv_layout at he
      simp only [if_pos hdvd] at he
      exact (PlanResult.error.injEq _ _).mp he.symm
  · unfold get_tv_layout
    rw [if_pos (by decide : (510 : Nat) % (copy_bits / 16) ≠ 0)]
    rfl

/-- C8: whenever the cluster size exceeds 1, the per-thread operation trace is
exactly: barrier arrival-count 1 set by each thread with index below
stageCount, then the fence, then the expected transfer bytes
warpCount times clusterSize times the accumulator byte width set by the same
threads, then a relaxed cluster-arrive by every thread. -/
theorem C8_init_cluster_sequence (tidx stage cluster_n num_warps
    reduction_dtype_width : Nat) (hcn : 1 < cluster_n)
    (hw : 8 ∣ reduction_dtype_width) :
    init_cluster tidx stage cluster_n num_warps reduction_dtype_width =
      if tidx < stage then
        [ClusterOp.mbarrier_init_arrive_cnt tidx 1,
         ClusterOp.mbarrier_init_fence,
         ClusterOp.mbarrier_init_tx_bytes tidx
           (num_warps * cluster_n * (reduction_dtype_width / 8)),
         ClusterOp.cluster_arrive_relaxed]
      else [ClusterOp.mbarrier_init_fence, ClusterOp.cluster_arrive_relaxed] := by
  obtain ⟨k, rfl⟩ := hw
  have hbytes : num_warps * cluster_n * (8 * k) / 8
      = num_warps * cluster_n * (8 * k / 8) := by
    have h8 : (0 : Nat) < 8 := by decide
    rw [Nat.mul_div_cancel_left k h8]
    have he : num_warps * cluster_n * (8 * k) = 8 * (num_warps * cluster_n * k) := by
      ring
    rw [he, Nat.mul_div_cancel_left _ h8]
  unfold init_cluster
  rw [if_pos hcn, hbytes]
  split <;> rfl

/-- Witness for C8 at tidx=0, 1 stage, cluster size 2, 4 warps, 32-bit
accumulator. -/
theorem C8_init_cluster_sequence_witness :
    init_cluster 0 1 2 4 32 =
      if 0 < 1 then
        [ClusterOp.mbarrier_init_arrive_cnt 0 1,
         ClusterOp.mbarrier_init_fence,
         ClusterOp.mbarrier_init_tx_bytes 0 (4 * 2 * (32 / 8)),
         ClusterOp.cluster_arrive_relaxed]
      else [ClusterOp.mbarrier_init_fence, ClusterOp.cluster_arrive_relaxed] :=
  C8_init_cluster_sequence 0 1 2 4 32 (by decide) (by decide)

/-- C9: with cluster size 1 the allocator returns no barrier handle and the
cluster setup emits no operation at all, and a barrier handle exists exactly
when the cluster size exceeds 1. -/
theorem C9_no_cluster_no_barrier (stage num_warps reduction_dtype_width
    tidx : Nat) (tv : TVLayout) :
    (allocate_reduction_buffer_and_mbar stage 1 tv).2 = none
    ∧ init_cluster tidx stage 1 num_warps reduction_dtype_width = []
    ∧ (∀ cluster_n,
        ((allocate_reduction_buffer_and_mbar stage cluster_n tv).2).isSome
          ↔ 1 < cluster_n) := by
  refine ⟨rfl, rfl, ?_⟩
  intro cluster_n
  unfold allocate_reduction_buffer_and_mbar
  dsimp only
  split
  · simpa
  · simpa using by omega

/-- C10: the built-in thread-count policy returns only 128 or 256, always a
multiple of the warp size, so the planner can never surface the alignment
error. -/
theorem C10_alignment_unreachable (N : Nat) (hN : 0 < N) :
    (get_num_threads N = 128 ∨ get_num_threads N = 256)
    ∧ get_num_threads N % WARP_SIZE = 0
    ∧ ∀ width cluster_n threads_per_row nt,
        get_tv_layout width N cluster_n threads_per_row ≠
          .error (.alignment nt) := by
  refine ⟨?_, get_num_threads_mod N, ?_⟩
  · unfold get_num_threads
    split
    · exact Or.inl rfl
    · exact Or.inr rfl
  · intro width cluster_n threads_per_row nt h
    by_cases hdvd : N % (copy_bits / width) = 0
    · rw [get_tv_layout_eq_ok width N cluster_n threads_per_row hdvd] at h
      exact PlanResult.noConfusion h
    · unfold get_tv_layout at h
      simp only [if_pos hdvd] at h
      have := (PlanResult.error.injEq _ _).mp h
      exact PlanError.noConfusion this

/-- Witness for C10 at N = 512. -/
theorem C10_alignment_unreachable_witness :
    (get_num_threads 512 = 128 ∨ get_num_threads 512 = 256)
    ∧ get_num_threads 512 % WARP_SIZE = 0
    ∧ ∀ width cluster_n threads_per_row nt,
        get_tv_layout width 512 cluster_n threads_per_row ≠
          .error (.alignment nt) :=
  C10_alignment_unreachable 512 (by decide)

/-- Injectivity core for the TV layout offsets, in mixed-radix form with the
thread id split at radix P. -/
lemma tv_inj_core {P T V B tid1 v1 b1 tid2 v2 b2 : Nat}
    (ht1 : tid1 < P * T) (hv1 : v1 < V) (hb1 : b1 < B)
    (ht2 : tid2 < P * T) (hv2 : v2 < V) (hb2 : b2 < B)
    (h : tid1 % P + P * (v1 + V * (tid1 / P + T * b1))
       = tid2 % P + P * (v2 + V * (tid2 / P + T * b2))) :
    tid1 = tid2 ∧ v1 = v2 ∧ b1 = b2 := by
  have hPT : 0 < P * T := Nat.lt_of_le_of_lt (Nat.zero_le tid1) ht1
  have hP : 0 < P := by
    rcases Nat.eq_zero_or_pos P with h0 | h0
    · rw [h0] at hPT; simp at hPT
    · exact h0
  have hT : 0 < T := by
    rcases Nat.eq_zero_or_pos T with h0 | h0
    · rw [h0] at hPT; simp at hPT
    · exact h0
  have hd1 : tid1 / P < T := Nat.div_lt_of_lt_mul ht1
  have hd2 : tid2 / P < T := Nat.div_lt_of_lt_mul ht2
  obtain ⟨hc, hv, ht, hb⟩ :=
    radix4_inj (Nat.mod_lt tid1 hP) hv1 hd1 (Nat.mod_lt tid2 hP) hv2 hd2 h
  refine ⟨?_, hv, hb⟩
  have e1 : P * (tid1 / P) + tid1 % P = tid1 := Nat.div_add_mod tid1 P
  have e2 : P * (tid2 / P) + tid2 % P = tid2 := Nat.div_add_mod tid2 P
  rw [ht, hc] at e1
  omega

/-- Surjectivity core for the TV layout offsets. -/
lemma tv_surj_core {P T V B : Nat} (o : Nat) (ho : o < P * T * (V * B)) :
    ∃ tid v b, tid < P * T ∧ v < V ∧ b < B ∧
      tid % P + P * (v + V * (tid / P + T * b)) = o := by
  have he : P * T * (V * B) = P * V * T * B := by ring
  rw [he] at ho
  obtain ⟨c, v, t, b, hc, hv, ht, hb, henc⟩ := radix4_surj o ho
  refine ⟨c + P * t, v, b, digit_step_lt hc ht, hv, hb, ?_⟩
  rw [digit_mod hc, digit_div hc]
  exact henc

/-- The offset map of the TV layout the planner builds, in mixed-radix form. -/
lemma tv_offset_eq (P T V B tid v b : Nat) :
    tv_offset ⟨((P, T), (V, B)), ((1, V * P), (P, P * V * T))⟩ tid v b
      = tid % P + P * (v + V * (tid / P + T * b)) := by
  unfold tv_offset
  dsimp only
  ring

/-- C1 (amended): for every valid configuration, the planner layout maps the
(thread, vector-slot, block-chunk) triples injectively into offsets, covers
every offset below the tile capacity, and, when the cluster size is 1, reaches
every element 0..N-1 by exactly one triple. -/
theorem C1_tv_layout_bijection (width N cluster_n threads_per_row : Nat)
    (tiler_mn : Nat × Nat) (L : TVLayout)
    (hok : get_tv_layout width N cluster_n threads_per_row = .ok tiler_mn L)
    (hw : width = 16 ∨ width = 32)
    (htpr : 0 < threads_per_row)
    (hdvd : threads_per_row ∣ get_num_threads N) :
    (∀ tid1 v1 b1 tid2 v2 b2,
        tid1 < tv_thr_size L → v1 < L.shape.2.1 → b1 < L.shape.2.2 →
        tid2 < tv_thr_size L → v2 < L.shape.2.1 → b2 < L.shape.2.2 →
        tv_offset L tid1 v1 b1 = tv_offset L tid2 v2 b2 →
        tid1 = tid2 ∧ v1 = v2 ∧ b1 = b2)
    ∧ (∀ o, o < tv_size L → ∃ tid v b,
        tid < tv_thr_size L ∧ v < L.shape.2.1 ∧ b < L.shape.2.2 ∧
          tv_offset L tid v b = o)
    ∧ (cluster_n = 1 → ∀ e, e < N → ∃ tid v b,
        tid < tv_thr_size L ∧ v < L.shape.2.1 ∧ b < L.shape.2.2 ∧
          tv_offset L tid v b = e) := by
  have hmod := get_tv_layout_ok_div hok
  have hL := get_tv_layout_eq_ok width N cluster_n threads_per_row hmod
  rw [hok] at hL
  injection hL with htiler hLeq
  subst hLeq
  simp only [tv_thr_size, tv_size, tv_offset_eq]
  refine ⟨?_, ?_, ?_⟩
  · intro tid1 v1 b1 tid2 v2 b2 h1 hv1 hb1 h2 hv2 hb2 h
    exact tv_inj_core h1 hv1 hb1 h2 hv2 hb2 h
  · intro o ho
    exact tv_surj_core o ho
  · intro hc1 e he
    subst hc1
    apply tv_surj_core
    refine Nat.lt_of_lt_of_le he ?_
    have hV : 0 < copy_bits / width := by
      rcases hw with rfl | rfl <;> decide
    have hnt : 0 < get_num_threads N := by
      unfold get_num_threads; split <;> decide
    have hP1 : 1 ≤ get_num_threads N / threads_per_row :=
      (Nat.one_le_div_iff htpr).mpr (Nat.le_of_dvd hnt hdvd)
    have hK : 0 < threads_per_row * 1 := by omega
    have hMK : N / (copy_bits / width)
        ≤ threads_per_row * 1 *
          ceil_div (N / (copy_bits / width)) (threads_per_row * 1) :=
      le_mul_ceil_div hK
    have hNM : N / (copy_bits / width) * (copy_bits / width) = N :=
      Nat.div_mul_cancel (Nat.dvd_of_mod_eq_zero hmod)
    calc N = N / (copy_bits / width) * (copy_bits / width) := hNM.symm
      _ ≤ threads_per_row * 1 *
            ceil_div (N / (copy_bits / width)) (threads_per_row * 1) *
            (copy_bits / width) :=
          Nat.mul_le_mul_right _ hMK
      _ = 1 * (threads_per_row * (copy_bits / width *
            ceil_div (N / (copy_bits / width)) (threads_per_row * 1))) := by
          ring
      _ ≤ get_num_threads N / threads_per_row * (threads_per_row *
            (copy_bits / width *
              ceil_div (N / (copy_bits / width)) (threads_per_row * 1))) :=
          Nat.mul_le_mul_right _ hP1
      _ = get_num_threads N / threads_per_row * threads_per_row *
            (copy_bits / width *
              ceil_div (N / (copy_bits / width)) (threads_per_row * 1)) := by
          ring

/-- Witness for C1 at the worked example N=512, 16-bit elements,
threadsPerRow=32, clusterSize=1. -/
theorem C1_tv_layout_bijection_witness :
    (∀ tid1 v1 b1 tid2 v2 b2,
        tid1 < tv_thr_size (⟨((4, 32), (8, 2)), ((1, 32), (4, 1024))⟩ : TVLayout) →
        v1 < 8 → b1 < 2 →
        tid2 < tv_thr_size (⟨((4, 32), (8, 2)), ((1, 32), (4, 1024))⟩ : TVLayout) →
        v2 < 8 → b2 < 2 →
        tv_offset ⟨((4, 32), (8, 2)), ((1, 32), (4, 1024))⟩ tid1 v1 b1 =
          tv_offset ⟨((4, 32), (8, 2)), ((1, 32), (4, 1024))⟩ tid2 v2 b2 →
        tid1 = tid2 ∧ v1 = v2 ∧ b1 = b2)
    ∧ (∀ o, o < tv_size (⟨((4, 32), (8, 2)), ((1, 32), (4, 1024))⟩ : TVLayout) →
        ∃ tid v b, tid < tv_thr_size
            (⟨((4, 32), (8, 2)), ((1, 32), (4, 1024))⟩ : TVLayout) ∧
          v < 8 ∧ b < 2 ∧
          tv_offset ⟨((4, 32), (8, 2)), ((1, 32), (4, 1024))⟩ tid v b = o)
    ∧ ((1 : Nat) = 1 → ∀ e, e < 512 → ∃ tid v b,
        tid < tv_thr_size (⟨((4, 32), (8, 2)), ((1, 32), (4, 1024))⟩ : TVLayout) ∧
          v < 8 ∧ b < 2 ∧
          tv_offset ⟨((4, 32), (8, 2)), ((1, 32), (4, 1024))⟩ tid v b = e) :=
  C1_tv_layout_bijection 16 512 1 32 (4, 512)
    ⟨((4, 32), (8, 2)), ((1, 32), (4, 1024))⟩
    (by decide) (Or.inl rfl) (by decide) (by decide)

/-- C1 counterexample to the claim as stated: with clusterSize = 2 (N = 4096,
32-bit elements, threadsPerRow = 128) the planner accepts the configuration,
yet element 4095 < N is reached by no (thread, vector-slot, block-chunk)
triple of the resulting layout, whose capacity is only 2048. -/
theorem C1_counterexample :
    get_tv_layout 32 4096 2 128 =
      .ok (1, 2048) ⟨((1, 128), (4, 4)), ((1, 4), (1, 512))⟩
    ∧ (4095 : Nat) < 4096
    ∧ ∀ tid, tid < tv_thr_size
          (⟨((1, 128), (4, 4)), ((1, 4), (1, 512))⟩ : TVLayout) →
        ∀ v, v < 4 → ∀ b, b < 4 →
          tv_offset ⟨((1, 128), (4, 4)), ((1, 4), (1, 512))⟩ tid v b ≠ 4095 := by
  refine ⟨by decide, by decide, ?_⟩
  decide

/-- C2 (amended): for every valid configuration accepted by the planner, the
product vectorWidth times blocksPerRow times threadsPerRow times clusterSize
is at least N and less than N plus vectorWidth times threadsPerRow times
clusterSize. -/
theorem C2_capacity_bounds (width N cluster_n threads_per_row : Nat)
    (tiler_mn : Nat × Nat) (L : TVLayout)
    (hok : get_tv_layout width N cluster_n threads_per_row = .ok tiler_mn L)
    (hw : width = 16 ∨ width = 32)
    (htpr : 0 < threads_per_row) (hcn : 0 < cluster_n) :
    N ≤ L.shape.2.1 * L.shape.2.2 * L.shape.1.2 * cluster_n
    ∧ L.shape.2.1 * L.shape.2.2 * L.shape.1.2 * cluster_n
        < N + L.shape.2.1 * L.shape.1.2 * cluster_n := by
  have hmod := get_tv_layout_ok_div hok
  have hL := get_tv_layout_eq_ok width N cluster_n threads_per_row hmod
  rw [hok] at hL
  injection hL with htiler hLeq
  subst hLeq
  dsimp only
  have hV : 0 < copy_bits / width := by
    rcases hw with rfl | rfl <;> decide
  have hK : 0 < threads_per_row * cluster_n := Nat.mul_pos htpr hcn
  have hNM : N / (copy_bits / width) * (copy_bits / width) = N :=
    Nat.div_mul_cancel (Nat.dvd_of_mod_eq_zero hmod)
  have hlow : N / (copy_bits / width)
      ≤ threads_per_row * cluster_n *
        ceil_div (N / (copy_bits / width)) (threads_per_row * cluster_n) :=
    le_mul_ceil_div hK
  have hhigh : threads_per_row * cluster_n *
      ceil_div (N / (copy_bits / width)) (threads_per_row * cluster_n)
      < N / (copy_bits / width) + threads_per_row * cluster_n :=
    mul_ceil_div_lt hK
  constructor
  · calc N = N / (copy_bits / width) * (copy_bits / width) := hNM.symm
      _ ≤ threads_per_row * cluster_n *
            ceil_div (N / (copy_bits / width)) (threads_per_row * cluster_n) *
            (copy_bits / width) :=
          Nat.mul_le_mul_right _ hlow
      _ = copy_bits / width *
            ceil_div (N / (copy_bits / width)) (threads_per_row * cluster_n) *
            threads_per_row * cluster_n := by ring
  · calc copy_bits / width *
          ceil_div (N / (copy_bits / width)) (threads_per_row * cluster_n) *
          threads_per_row * cluster_n
        = (threads_per_row * cluster_n *
            ceil_div (N / (copy_bits / width)) (threads_per_row * cluster_n)) *
            (copy_bits / width) := by ring
      _ < (N / (copy_bits / width) + threads_per_row * cluster_n) *
            (copy_bits / width) :=
          Nat.mul_lt_mul_of_lt_of_le hhigh (Nat.le_refl _) hV
      _ = N / (copy_bits / width) * (copy_bits / width) +
            copy_bits / width * threads_per_row * cluster_n := by ring
      _ = N + copy_bits / width * threads_per_row * cluster_n := by rw [hNM]

/-- Witness for C2 at the worked example N=512, 16-bit elements,
threadsPerRow=32, clusterSize=1. -/
theorem C2_capacity_bounds_witness :
    (512 : Nat) ≤ 8 * 2 * 32 * 1 ∧ (8 * 2 * 32 * 1 : Nat) < 512 + 8 * 32 * 1 := by
  have h := C2_capacity_bounds 16 512 1 32 (4, 512)
    ⟨((4, 32), (8, 2)), ((1, 32), (4, 1024))⟩
    (by decide) (Or.inl rfl) (by decide) (by decide)
  exact h

/-- C2 counterexample to the claim as stated: at the worked example the
claimed product colsPerBlock times vectorWidth times blocksPerRow times
threadsPerRow is 2048, which is not below N plus vectorWidth times
threadsPerRow times clusterSize = 768. -/
theorem C2_counterexample :
    get_tv_layout 16 512 1 32 =
      .ok (4, 512) ⟨((4, 32), (8, 2)), ((1, 32), (4, 1024))⟩
    ∧ ¬ ((4 * 8 * 2 * 32 : Nat) < 512 + 8 * 32 * 1) := by
  exact ⟨by decide, by decide⟩

/-- For the two built-in thread counts, the warps-per-row value computed by
the buffer layout divides the warp count, for every divisor threads_per_row. -/
lemma wpr_dvd_aux : ∀ t : Nat, t < 257 →
    (t ∣ 128 → max_constexpr (128 / t / WARP_SIZE) 1 ∣ 128 / WARP_SIZE) ∧
    (t ∣ 256 → max_constexpr (256 / t / WARP_SIZE) 1 ∣ 256 / WARP_SIZE) := by
  decide

/-- The built-in thread-count policy takes only the two values 128 and 256. -/
lemma get_num_threads_cases (N : Nat) :
    get_num_threads N = 128 ∨ get_num_threads N = 256 := by
  unfold get_num_threads
  split
  · exact Or.inl rfl
  · exact Or.inr rfl

/-- C3 (amended): for every planner-produced tvLayout, the reduction buffer
layout uses warpCount = (threads of the outer thread mode) / warpSize and
warpsPerRow = max(1, colsPerBlock / warpSize) computed from the FIRST
dimension of the thread mode (colsPerBlock, not threadsPerRow), has shape
(warpCount / warpsPerRow, (warpsPerRow, clusterSize), stageCount) with mode 1
fastest-varying, then mode 0, then mode 2, and the product of all dimensions
equals warpCount times clusterSize times stageCount. -/
theorem C3_reduction_buffer_layout (width N cluster_n threads_per_row stage : Nat)
    (tiler_mn : Nat × Nat) (L : TVLayout)
    (hok : get_tv_layout width N cluster_n threads_per_row = .ok tiler_mn L)
    (htpr : 0 < threads_per_row)
    (hdvd : threads_per_row ∣ get_num_threads N) :
    tv_thr_size L = get_num_threads N
    ∧ L.shape.1.1 = get_num_threads N / threads_per_row
    ∧ (get_reduction_buffer_layout stage L cluster_n).shape =
        (tv_thr_size L / WARP_SIZE / max_constexpr (L.shape.1.1 / WARP_SIZE) 1,
          (max_constexpr (L.shape.1.1 / WARP_SIZE) 1, cluster_n), stage)
    ∧ (get_reduction_buffer_layout stage L cluster_n).stride =
        (max_constexpr (L.shape.1.1 / WARP_SIZE) 1 * cluster_n,
          (1, max_constexpr (L.shape.1.1 / WARP_SIZE) 1),
          tv_thr_size L / WARP_SIZE / max_constexpr (L.shape.1.1 / WARP_SIZE) 1 *
            (max_constexpr (L.shape.1.1 / WARP_SIZE) 1 * cluster_n))
    ∧ tv_thr_size L / WARP_SIZE / max_constexpr (L.shape.1.1 / WARP_SIZE) 1 *
          max_constexpr (L.shape.1.1 / WARP_SIZE) 1 * cluster_n * stage
        = tv_thr_size L / WARP_SIZE * cluster_n * stage := by
  have hmod := get_tv_layout_ok_div hok
  have hL := get_tv_layout_eq_ok width N cluster_n threads_per_row hmod
  rw [hok] at hL
  injection hL with htiler hLeq
  subst hLeq
  have hthr : get_num_threads N / threads_per_row * threads_per_row
      = get_num_threads N := Nat.div_mul_cancel hdvd
  refine ⟨hthr, rfl, rfl, rfl, ?_⟩
  simp only [tv_thr_size]
  rw [hthr]
  have hcancel : get_num_threads N / WARP_SIZE /
        max_constexpr (get_num_threads N / threads_per_row / WARP_SIZE) 1 *
        max_constexpr (get_num_threads N / threads_per_row / WARP_SIZE) 1
      = get_num_threads N / WARP_SIZE := by
    rcases get_num_threads_cases N with hnt | hnt <;> rw [hnt] at hdvd ⊢
    · have hle : threads_per_row ≤ 128 := Nat.le_of_dvd (by decide) hdvd
      exact Nat.div_mul_cancel ((wpr_dvd_aux threads_per_row (by omega)).1 hdvd)
    · have hle : threads_per_row ≤ 256 := Nat.le_of_dvd (by decide) hdvd
      exact Nat.div_mul_cancel ((wpr_dvd_aux threads_per_row (by omega)).2 hdvd)
  rw [hcancel]

/-- Witness for C3 at the worked example N=512, 16-bit elements,
threadsPerRow=32, clusterSize=1, 2 stages. -/
theorem C3_reduction_buffer_layout_witness :
    tv_thr_size (⟨((4, 32), (8, 2)), ((1, 32), (4, 1024))⟩ : TVLayout)
        = get_num_threads 512
    ∧ (⟨((4, 32), (8, 2)), ((1, 32), (4, 1024))⟩ : TVLayout).shape.1.1
        = get_num_threads 512 / 32
    ∧ (get_reduction_buffer_layout 2
          ⟨((4, 32), (8, 2)), ((1, 32), (4, 1024))⟩ 1).shape =
        (tv_thr_size (⟨((4, 32), (8, 2)), ((1, 32), (4, 1024))⟩ : TVLayout) /
            WARP_SIZE /
            max_constexpr
              ((⟨((4, 32), (8, 2)), ((1, 32), (4, 1024))⟩ : TVLayout).shape.1.1 /
                WARP_SIZE) 1,
          (max_constexpr
              ((⟨((4, 32), (8, 2)), ((1, 32), (4, 1024))⟩ : TVLayout).shape.1.1 /
                WARP_SIZE) 1, 1), 2)
    ∧ (get_reduction_buffer_layout 2
          ⟨((4, 32), (8, 2)), ((1, 32), (4, 1024))⟩ 1).stride =
        (max_constexpr
            ((⟨((4, 32), (8, 2)), ((1, 32), (4, 1024))⟩ : TVLayout).shape.1.1 /
              WARP_SIZE) 1 * 1,
          (1, max_constexpr
              ((⟨((4, 32), (8, 2)), ((1, 32), (4, 1024))⟩ : TVLayout).shape.1.1 /
                WARP_SIZE) 1),
          tv_thr_size (⟨((4, 32), (8, 2)), ((1, 32), (4, 1024))⟩ : TVLayout) /
              WARP_SIZE /
              max_constexpr
                ((⟨((4, 32), (8, 2)), ((1, 32), (4, 1024))⟩ : TVLayout).shape.1.1 /
                  WARP_SIZE) 1 *
            (max_constexpr
                ((⟨((4, 32), (8, 2)), ((1, 32), (4, 1024))⟩ : TVLayout).shape.1.1 /
                  WARP_SIZE) 1 * 1))
    ∧ tv_thr_size (⟨((4, 32), (8, 2)), ((1, 32), (4, 1024))⟩ : TVLayout) /
            WARP_SIZE /
            max_constexpr
              ((⟨((4, 32), (8, 2)), ((1, 32), (4, 1024))⟩ : TVLayout).shape.1.1 /
                WARP_SIZE) 1 *
          max_constexpr
            ((⟨((4, 32), (8, 2)), ((1, 32), (4, 1024))⟩ : TVLayout).shape.1.1 /
              WARP_SIZE) 1 * 1 * 2
        = tv_thr_size (⟨((4, 32), (8, 2)), ((1, 32), (4, 1024))⟩ : TVLayout) /
            WARP_SIZE * 1 * 2 :=
  C3_reduction_buffer_layout 16 512 1 32 2 (4, 512)
    ⟨((4, 32), (8, 2)), ((1, 32), (4, 1024))⟩
    (by decide) (by decide) (by decide)

/-- C3 counterexample to the claim as stated: for the planner-produced layout
with threadsPerRow = 128 (N = 1024, 32-bit elements, 128 threads), the code
computes warps-per-row from the first thread-mode dimension (colsPerBlock = 1,
giving 1), not from threadsPerRow (which would give max(1, 128/32) = 4), so
the buffer shape differs from the one the claim prescribes. -/
theorem C3_counterexample :
    get_tv_layout 32 1024 1 128 =
      .ok (1, 1024) ⟨((1, 128), (4, 2)), ((1, 4), (1, 512))⟩
    ∧ (⟨((1, 128), (4, 2)), ((1, 4), (1, 512))⟩ : TVLayout).shape.1.2 = 128
    ∧ (get_reduction_buffer_layout 2
          ⟨((1, 128), (4, 2)), ((1, 4), (1, 512))⟩ 1).shape ≠
        (tv_thr_size (⟨((1, 128), (4, 2)), ((1, 4), (1, 512))⟩ : TVLayout) /
            WARP_SIZE / max_constexpr (128 / WARP_SIZE) 1,
          (max_constexpr (128 / WARP_SIZE) 1, 1), 2) := by
  refine ⟨by decide, by decide, by decide⟩

end Quack
